import Mathlib

set_option maxRecDepth 2048

/-!
A shallow embedding of the memory-addressing subsystem (`src/src/mmu/mmu.go`,
package `mmu`, type `GbcMMU`) of the gomeboycolor emulator, together with
theorems settling the specification claims about it.

Modelling conventions:
* `types.Word` (Go `uint16`) values are `Nat`s below 65536; `uint16`
  arithmetic is made explicit (`wordAdd`, `wordSub`).
* Go fixed-size byte arrays are total functions `Nat → Nat` accessed only
  through `arrayIndex`/`arrayStore`, which model Go's bounds check: an
  out-of-range index is a runtime panic, represented by `none`.
* The externally owned cartridge (`mmu.cartridge.MBC`) is visible to the
  router only through its `Read`/`Write` boundary; reads are a fixed
  function `cartRead`, and each delegated write is recorded in the
  `cartWrites` log (most recent first), which stands for the externally
  observable effect on the cartridge.
* A bound peripheral (`components.Peripheral`) exposes `Read`, `Write` and
  `Name`; its `Write` acts on the device, not on the router state, so the
  router state is unchanged when a write is delegated to it.
-/

/-- A memory-mapped peripheral as seen by the router: an identity and its
`Read` behaviour (`components.Peripheral`). Its `Write` is external to the
router state. -/
structure Peripheral where
  pid : Nat
  pread : Nat → Nat

/-- The state of `GbcMMU` (mmu.go lines 30-42): the backing stores, the
boot-mode flag, the single-byte registers, the peripheral map and the
loaded cartridge boundary (`cartRead` / `cartWrites`). -/
structure GbcMMU where
  bios : Nat → Nat
  cartRead : Nat → Nat
  cartWrites : List (Nat × Nat)
  internalRAM : Nat → Nat
  internalRAMShadow : Nat → Nat
  emptySpace : Nat → Nat
  zeroPageRAM : Nat → Nat
  inBootMode : Bool
  dmgStatusRegister : Nat
  interruptsEnabled : Nat
  interruptsFlag : Nat
  peripheralIOMap : Nat → Option Peripheral

/-- Go `uint16` addition. -/
def wordAdd (a b : Nat) : Nat := (a + b) % 65536

/-- Go `uint16` subtraction (for `b ≤ 65536`), wrapping on underflow. -/
def wordSub (a b : Nat) : Nat := (a + 65536 - b) % 65536

/-- Go array store `a[i] = v` on a fixed array of `size` bytes: in bounds
it updates, out of bounds it is a runtime panic (`none`). -/
def arrayStore (size : Nat) (a : Nat → Nat) (i v : Nat) : Option (Nat → Nat) :=
  if i < size then some (fun j => if j = i then v else a j) else none

/-- Go array read `a[i]` on a fixed array of `size` bytes, `none` on an
out-of-bounds panic. -/
def arrayIndex (size : Nat) (a : Nat → Nat) (i : Nat) : Option Nat :=
  if i < size then some (a i) else none

/-- `GbcMMU.WriteByte` (mmu.go lines 58-102): peripheral check first, then
the ordered range switch. `none` is a runtime panic inside the call. -/
def GbcMMU.WriteByte (mmu : GbcMMU) (addr value : Nat) : Option GbcMMU :=
  match mmu.peripheralIOMap addr with
  | some _ => some mmu
  | none =>
    if addr ≤ 0x9FFF then
      some { mmu with cartWrites := (addr, value) :: mmu.cartWrites }
    else if 0xA000 ≤ addr ∧ addr ≤ 0xBFFF then
      some { mmu with cartWrites := (addr, value) :: mmu.cartWrites }
    else if 0xC000 ≤ addr ∧ addr ≤ 0xDFFF then
      (arrayStore 8192 mmu.internalRAM (addr &&& (0xDFFF - 0xC000)) value).bind fun ram =>
        if 0xC000 ≤ addr ∧ addr ≤ 0xDDFF then
          (arrayStore 7680 mmu.internalRAMShadow (addr &&& (0xDDFF - 0xC000)) value).bind
            fun shadow =>
              some { mmu with internalRAM := ram, internalRAMShadow := shadow }
        else
          some { mmu with internalRAM := ram }
    else if addr = 0xFF0F then
      some { mmu with interruptsFlag := value }
    else if 0xFF4C ≤ addr ∧ addr ≤ 0xFF7F then
      if addr = 0xFF50 then
        some { mmu with dmgStatusRegister := value }
      else
        (arrayStore 52 mmu.emptySpace (wordSub addr 0xFF4D) value).bind fun es =>
          some { mmu with emptySpace := es }
    else if 0xFF80 ≤ addr ∧ addr ≤ 0xFFFF then
      if addr = 0xFFFF then
        some { mmu with interruptsEnabled := value }
      else
        (arrayStore 128 mmu.zeroPageRAM (addr &&& (0xFFFF - 0xFF80)) value).bind fun zp =>
          some { mmu with zeroPageRAM := zp }
    else
      some mmu

/-- `GbcMMU.ReadByte` (mmu.go lines 104-156): peripheral check first, then
the ordered range switch; the fall-through default returns `0x00`. -/
def GbcMMU.ReadByte (mmu : GbcMMU) (addr : Nat) : Option Nat :=
  match mmu.peripheralIOMap addr with
  | some p => some (p.pread addr)
  | none =>
    if addr ≤ 0x3FFF then
      if mmu.inBootMode ∧ addr < 0x0100 then
        arrayIndex 256 mmu.bios addr
      else
        some (mmu.cartRead addr)
    else if 0x4000 ≤ addr ∧ addr ≤ 0x7FFF then
      some (mmu.cartRead addr)
    else if 0xA000 ≤ addr ∧ addr ≤ 0xBFFF then
      some (mmu.cartRead addr)
    else if 0xC000 ≤ addr ∧ addr ≤ 0xDFFF then
      arrayIndex 8192 mmu.internalRAM (addr &&& (0xDFFF - 0xC000))
    else if 0xE000 ≤ addr ∧ addr ≤ 0xFDFF then
      arrayIndex 7680 mmu.internalRAMShadow (addr &&& (0xFDFF - 0xE000))
    else if addr = 0xFF0F then
      some mmu.interruptsFlag
    else if 0xFF4C ≤ addr ∧ addr ≤ 0xFF7F then
      if addr = 0xFF50 then
        some mmu.dmgStatusRegister
      else
        arrayIndex 52 mmu.emptySpace (wordSub addr 0xFF4C)
    else if 0xFF80 ≤ addr ∧ addr ≤ 0xFFFF then
      if addr = 0xFFFF then
        some mmu.interruptsEnabled
      else
        arrayIndex 128 mmu.zeroPageRAM (addr &&& (0xFFFF - 0xFF80))
    else
      some 0x00

/-- Modelled from the spec: `utils.JoinBytes` is declared outside src, so
it is taken from the spec's words — the word is the little-endian join,
with the byte read at the lower address as the low-order byte. -/
def JoinBytes (lo hi : Nat) : Nat := lo + 256 * hi

/-- Modelled from the spec: `utils.SplitIntoBytes` is declared outside
src, so it is taken from the spec's words — a 16-bit value (`uint16`
conversion made explicit) splits into its low byte, written first, and its
high byte. -/
def SplitIntoBytes (w : Nat) : Nat × Nat := (w % 65536 % 256, w % 65536 / 256)

/-- `GbcMMU.ReadWord` (mmu.go lines 158-162): two byte reads at `addr` and
`addr+1`, joined and cast to `types.Word`. -/
def GbcMMU.ReadWord (mmu : GbcMMU) (addr : Nat) : Option Nat :=
  (mmu.ReadByte addr).bind fun b1 =>
    (mmu.ReadByte (wordAdd addr 1)).bind fun b2 =>
      some (JoinBytes b1 b2 % 65536)

/-- `GbcMMU.WriteWord` (mmu.go lines 164-168): split the value and write
the two bytes at `addr` and `addr+1`. -/
def GbcMMU.WriteWord (mmu : GbcMMU) (addr value : Nat) : Option GbcMMU :=
  (mmu.WriteByte addr (SplitIntoBytes value).1).bind fun m1 =>
    m1.WriteByte (wordAdd addr 1) (SplitIntoBytes value).2

/-- `GbcMMU.Reset` (mmu.go lines 51-55). -/
def GbcMMU.Reset (mmu : GbcMMU) : GbcMMU :=
  { mmu with inBootMode := true, interruptsFlag := 0x00 }

/-- `GbcMMU.SetInBootMode` (mmu.go lines 170-172). -/
def GbcMMU.SetInBootMode (mmu : GbcMMU) (mode : Bool) : GbcMMU :=
  { mmu with inBootMode := mode }

/-- The error value `ROMIsBiggerThanRegion` (mmu.go line 17); the spec
calls it `OverlayTooLarge`. -/
inductive MMUError where
  | ROMIsBiggerThanRegion
deriving DecidableEq

/-- The copy loop of `LoadBIOS`: `for i, b := range data { mmu.bios[i] = b }`,
storing the bytes of `data` at consecutive offsets starting at `i`. -/
def storeRange (a : Nat → Nat) (i : Nat) : List Nat → (Nat → Nat)
  | [] => a
  | b :: rest => storeRange (fun j => if j = i then b else a j) (i + 1) rest

/-- `GbcMMU.LoadBIOS` (mmu.go lines 206-216): data longer than the 256-byte
overlay is rejected with `ROMIsBiggerThanRegion` before anything is copied;
otherwise the data is copied in from offset 0 and the call succeeds. -/
def GbcMMU.LoadBIOS (mmu : GbcMMU) (data : List Nat) : GbcMMU × Bool × Option MMUError :=
  if data.length > 256 then
    (mmu, false, some MMUError.ROMIsBiggerThanRegion)
  else
    ({ mmu with bios := storeRange mmu.bios 0 data }, true, none)

/-- The `uint16` loop counter of the `ConnectPeripheral` range loop
`for addr := startAddr; addr <= endAddr; addr++` (mmu.go line 180) after
`n` increments: `types.Word` wraps modulo 2^16. -/
def connectCounter (startAddr n : Nat) : Nat := (startAddr + n) % 65536

/-- `GbcMMU.ConnectPeripheral` (mmu.go lines 174-184) returns either
through the `startAddr == endAddr` fast path or when the range loop's
guard `addr <= endAddr` fails at some iteration of its wrapping counter. -/
def ConnectPeripheralTerminates (startAddr endAddr : Nat) : Prop :=
  startAddr = endAddr ∨ ∃ n, endAddr < connectCounter startAddr n

/-- A fresh router as built by `NewGbcMMU` (mmu.go lines 44-49): zeroed
backing stores and registers, empty peripheral map, `Reset` applied, with
a cartridge loaded whose reads return 0 and whose write log is empty. -/
def newMMU : GbcMMU where
  bios := fun _ => 0
  cartRead := fun _ => 0
  cartWrites := []
  internalRAM := fun _ => 0
  internalRAMShadow := fun _ => 0
  emptySpace := fun _ => 0
  zeroPageRAM := fun _ => 0
  inBootMode := true
  dmgStatusRegister := 0
  interruptsEnabled := 0
  interruptsFlag := 0
  peripheralIOMap := fun _ => none

/-! ### Bitwise index helpers -/

/-- A masked value never exceeds the mask. -/
theorem land_le_right (a b : Nat) : a &&& b ≤ b := by
  induction b using Nat.strong_induction_on generalizing a with
  | _ b ih =>
    rcases Nat.eq_zero_or_pos b with hb | hb
    · subst hb; simp
    · have hdiv : (a &&& b) / 2 ≤ b / 2 := by
        rw [Nat.and_div_two]
        exact ih (b / 2) (Nat.div_lt_self hb (by omega)) (a / 2)
      have hmod : (a &&& b) % 2 ≤ b % 2 := by
        rcases Nat.mod_two_eq_zero_or_one (a &&& b) with h | h
        · omega
        · have h2 := (Nat.and_mod_two_eq_one.mp h).2
          omega
      omega

/-- The full work-RAM mask `0xDFFF - 0xC000 = 0x1FFF` is `2^13 - 1`, so
masking is reduction modulo `2^13`. -/
theorem land_work_mask (a : Nat) : a &&& 8191 = a % 8192 := by
  have h := Nat.and_pow_two_sub_one_eq_mod a 13
  norm_num at h
  exact h

/-- The zero-page mask `0xFFFF - 0xFF80 = 0x7F` is `2^7 - 1`, so masking
is reduction modulo `128`. -/
theorem land_zero_page_mask (a : Nat) : a &&& 127 = a % 128 := by
  have h := Nat.and_pow_two_sub_one_eq_mod a 7
  norm_num at h
  exact h

/-- Adding the echo displacement `0x2000 = 2^13` does not change the value
under the shadow mask `0x1DFF = 7679 < 2^13`: the mask keeps only bits
below 13 (bit 9 excepted), and those are unchanged by adding `2^13`. -/
theorem land_shadow_add_8192 (a : Nat) : (a + 8192) &&& 7679 = a &&& 7679 := by
  apply Nat.eq_of_testBit_eq
  intro i
  simp only [Nat.testBit_and]
  rcases Nat.lt_or_ge i 13 with hi | hi
  · have e1 : Nat.testBit (a + 8192) i = Nat.testBit ((a + 8192) % 2 ^ 13) i := by
      rw [Nat.testBit_mod_two_pow]
      simp [hi]
    have e2 : Nat.testBit a i = Nat.testBit (a % 2 ^ 13) i := by
      rw [Nat.testBit_mod_two_pow]
      simp [hi]
    have e3 : ((a + 8192) % 2 ^ 13 : Nat) = a % 2 ^ 13 := by
      have h13 : (8192 : Nat) = 2 ^ 13 := by norm_num
      rw [h13, Nat.add_mod_right]
    rw [e1, e3, ← e2]
  · have hz : Nat.testBit 7679 i = false := by
      apply Nat.testBit_lt_two_pow
      calc (7679 : Nat) < 2 ^ 13 := by norm_num
        _ ≤ 2 ^ i := Nat.pow_le_pow_right (by norm_num) hi
    simp [hz]

/-- The shadow index is always inside the 7680-byte shadow store. -/
theorem shadow_index_lt (a : Nat) : a &&& 7679 < 7680 :=
  Nat.lt_of_le_of_lt (land_le_right a 7679) (by norm_num)

/-! ### Shape lemmas for the write and read paths -/

/-- A work-RAM write in the echo-mirrored sub-window `[0xC000, 0xDDFF]`
with no peripheral bound updates `internalRAM` at `addr &&& 0x1FFF` and
`internalRAMShadow` at `addr &&& 0x1DFF`. -/
theorem writeByte_ram_mirrored (mmu : GbcMMU) (a v : Nat)
    (hp : mmu.peripheralIOMap a = none)
    (h1 : 0xC000 ≤ a) (h2 : a ≤ 0xDDFF) :
    mmu.WriteByte a v = some { mmu with
      internalRAM := fun j => if j = a &&& 8191 then v else mmu.internalRAM j,
      internalRAMShadow := fun j => if j = a &&& 7679 then v else mmu.internalRAMShadow j } := by
  have hb1 : ¬ a ≤ 0x9FFF := by omega
  have hb2 : ¬ (0xA000 ≤ a ∧ a ≤ 0xBFFF) := by omega
  have hb3 : 0xC000 ≤ a ∧ a ≤ 0xDFFF := by omega
  have hb4 : 0xC000 ≤ a ∧ a ≤ 0xDDFF := by omega
  have hi1 : a &&& (0xDFFF - 0xC000) < 8192 := by
    have := land_work_mask a
    norm_num
    omega
  have hi2 : a &&& (0xDDFF - 0xC000) < 7680 := by
    have := shadow_index_lt a
    norm_num
    omega
  simp only [GbcMMU.WriteByte, hp, arrayStore, if_neg hb1, if_neg hb2, if_pos hb3,
    if_pos hb4, if_pos hi1, if_pos hi2, Option.some_bind]

/-- A work-RAM write above the mirrored sub-window, in `(0xDDFF, 0xDFFF]`,
with no peripheral bound updates only `internalRAM`. -/
theorem writeByte_ram_high (mmu : GbcMMU) (a v : Nat)
    (hp : mmu.peripheralIOMap a = none)
    (h1 : 0xDDFF < a) (h2 : a ≤ 0xDFFF) :
    mmu.WriteByte a v = some { mmu with
      internalRAM := fun j => if j = a &&& 8191 then v else mmu.internalRAM j } := by
  have hb1 : ¬ a ≤ 0x9FFF := by omega
  have hb2 : ¬ (0xA000 ≤ a ∧ a ≤ 0xBFFF) := by omega
  have hb3 : 0xC000 ≤ a ∧ a ≤ 0xDFFF := by omega
  have hb4 : ¬ (0xC000 ≤ a ∧ a ≤ 0xDDFF) := by omega
  have hi1 : a &&& (0xDFFF - 0xC000) < 8192 := by
    have := land_work_mask a
    norm_num
    omega
  simp only [GbcMMU.WriteByte, hp, arrayStore, if_neg hb1, if_neg hb2, if_pos hb3,
    if_neg hb4, if_pos hi1, Option.some_bind]

/-- A work-RAM read with no peripheral bound returns
`internalRAM[addr &&& 0x1FFF]`. -/
theorem readByte_ram (mmu : GbcMMU) (a : Nat)
    (hp : mmu.peripheralIOMap a = none)
    (h1 : 0xC000 ≤ a) (h2 : a ≤ 0xDFFF) :
    mmu.ReadByte a = some (mmu.internalRAM (a &&& 8191)) := by
  have hb1 : ¬ a ≤ 0x3FFF := by omega
  have hb2 : ¬ (0x4000 ≤ a ∧ a ≤ 0x7FFF) := by omega
  have hb3 : ¬ (0xA000 ≤ a ∧ a ≤ 0xBFFF) := by omega
  have hb4 : 0xC000 ≤ a ∧ a ≤ 0xDFFF := by omega
  have hi1 : a &&& (0xDFFF - 0xC000) < 8192 := by
    have := land_work_mask a
    norm_num
    omega
  simp only [GbcMMU.ReadByte, hp, arrayIndex, if_neg hb1, if_neg hb2, if_neg hb3,
    if_pos hb4, if_pos hi1]

/-- An echo-RAM read with no peripheral bound returns
`internalRAMShadow[addr &&& 0x1DFF]`. -/
theorem readByte_echo (mmu : GbcMMU) (a : Nat)
    (hp : mmu.peripheralIOMap a = none)
    (h1 : 0xE000 ≤ a) (h2 : a ≤ 0xFDFF) :
    mmu.ReadByte a = some (mmu.internalRAMShadow (a &&& 7679)) := by
  have hb1 : ¬ a ≤ 0x3FFF := by omega
  have hb2 : ¬ (0x4000 ≤ a ∧ a ≤ 0x7FFF) := by omega
  have hb3 : ¬ (0xA000 ≤ a ∧ a ≤ 0xBFFF) := by omega
  have hb4 : ¬ (0xC000 ≤ a ∧ a ≤ 0xDFFF) := by omega
  have hb5 : 0xE000 ≤ a ∧ a ≤ 0xFDFF := by omega
  have hi1 : a &&& (0xFDFF - 0xE000) < 7680 := by
    have := shadow_index_lt a
    norm_num
    omega
  simp only [GbcMMU.ReadByte, hp, arrayIndex, if_neg hb1, if_neg hb2, if_neg hb3,
    if_neg hb4, if_pos hb5, if_pos hi1]

/-! ### Claim theorems -/

/-- C1 (code evaluation at the failing input): on a fresh router, write 5
to 0xC000, then 7 to 0xC200, then read the echo address 0xE000. The claim
says the read returns the value of the last write to 0xC000 (namely 5), and
is unaffected by writes to other work-RAM addresses; the code returns 7,
because the shadow index `addr & 0x1DFF` drops bit 9 of the offset and so
aliases 0xC200 onto the shadow cell of 0xC000. -/
theorem C1_echo_alias_eval :
    ((newMMU.WriteByte 0xC000 5).bind fun m1 =>
      (m1.WriteByte 0xC200 7).bind fun m2 =>
        m2.ReadByte 0xE000) = some 7 := by
  rfl

/-- C2 counterexample: with no peripheral bound at 0x8000 and a cartridge
loaded, `WriteByte 0x8000 1` is not dropped — it is delegated to the
cartridge (the write appears on the cartridge boundary log), refuting the
claim that the cartridge's state is unchanged by the call. -/
theorem C2_counterexample :
    newMMU.peripheralIOMap 0x8000 = none ∧
    newMMU.cartWrites = [] ∧
    (newMMU.WriteByte 0x8000 1).map GbcMMU.cartWrites = some [(0x8000, 1)] := by
  refine ⟨rfl, rfl, ?_⟩
  rfl

/-- C2 (amended): for every address in [0x8000, 0x9FFF] with no peripheral
bound and a cartridge loaded, `WriteByte` is delegated to the cartridge's
MBC write handler with the same address and value (the branch covering
0x0000-0x9FFF); the router's own stores are unchanged. -/
theorem C2_graphics_write_delegated (mmu : GbcMMU) (a v : Nat)
    (hp : mmu.peripheralIOMap a = none)
    (_h1 : 0x8000 ≤ a) (h2 : a ≤ 0x9FFF) :
    mmu.WriteByte a v = some { mmu with cartWrites := (a, v) :: mmu.cartWrites } := by
  simp only [GbcMMU.WriteByte, hp, if_pos h2]

/-- C2 witness: the amended claim evaluated at address 0x8000, value 1 on a
fresh router. -/
theorem C2_graphics_write_delegated_witness :
    newMMU.WriteByte 0x8000 1 = some { newMMU with cartWrites := [(0x8000, 1)] } :=
  C2_graphics_write_delegated newMMU 0x8000 1 rfl (by decide) (by decide)

/-- C3 (code evaluation at the failing input): `WriteByte 0xFF4C v` (no
peripheral bound there on a fresh router) computes the reserved-scratch
index `0xFF4C - 0xFF4D`, which wraps to 0xFFFF in uint16 arithmetic and is
out of bounds for the 52-byte array: a fatal runtime panic, refuting the
claim that every write completes with in-bounds indices. -/
theorem C3_scratch_write_panics : newMMU.WriteByte 0xFF4C 0 = none := by
  rfl

/-- C4 (code evaluation at the failing input): on a fresh router,
`WriteByte 0xFF4D 7` stores into `emptySpace[0xFF4D - 0xFF4D] = emptySpace[0]`,
but `ReadByte 0xFF4D` returns `emptySpace[0xFF4D - 0xFF4C] = emptySpace[1]`,
still 0 — not the written 7 the claim requires: the write and read paths of
the reserved-scratch region use different base offsets. -/
theorem C4_scratch_read_not_written :
    (newMMU.WriteByte 0xFF4D 7).bind (fun m => m.ReadByte 0xFF4D) = some 0 := by
  rfl

/-- C5: for every address a in [0xC000, 0xDDFF] with no peripheral bound
at a or at a + 0x2000, `WriteByte a v` immediately followed by
`ReadByte (a + 0x2000)` returns v. -/
theorem C5_echo_mirror (mmu : GbcMMU) (a v : Nat)
    (hp : mmu.peripheralIOMap a = none)
    (hp2 : mmu.peripheralIOMap (a + 0x2000) = none)
    (h1 : 0xC000 ≤ a) (h2 : a ≤ 0xDDFF) :
    (mmu.WriteByte a v).bind (fun m => m.ReadByte (a + 0x2000)) = some v := by
  rw [writeByte_ram_mirrored mmu a v hp h1 h2, Option.some_bind]
  have hr := readByte_echo ({ mmu with
      internalRAM := fun j => if j = a &&& 8191 then v else mmu.internalRAM j,
      internalRAMShadow := fun j => if j = a &&& 7679 then v else mmu.internalRAMShadow j })
    (a + 0x2000) hp2 (by omega) (by omega)
  rw [hr]
  simp [land_shadow_add_8192]

/-- C5 witness: write 5 at 0xC000 on a fresh router, read back at 0xE000. -/
theorem C5_echo_mirror_witness :
    (newMMU.WriteByte 0xC000 5).bind (fun m => m.ReadByte (0xC000 + 0x2000)) = some 5 :=
  C5_echo_mirror newMMU 0xC000 5 rfl rfl (by decide) (by decide)

/-- C6: for every address a in [0xC000, 0xDFFF] with no peripheral bound
at a, `WriteByte a v` followed by `ReadByte a` returns v. -/
theorem C6_wram_write_read (mmu : GbcMMU) (a v : Nat)
    (hp : mmu.peripheralIOMap a = none)
    (h1 : 0xC000 ≤ a) (h2 : a ≤ 0xDFFF) :
    (mmu.WriteByte a v).bind (fun m => m.ReadByte a) = some v := by
  rcases le_or_lt a 0xDDFF with h3 | h3
  · rw [writeByte_ram_mirrored mmu a v hp h1 h3, Option.some_bind]
    have hr := readByte_ram ({ mmu with
        internalRAM := fun j => if j = a &&& 8191 then v else mmu.internalRAM j,
        internalRAMShadow := fun j => if j = a &&& 7679 then v else mmu.internalRAMShadow j })
      a hp h1 h2
    rw [hr]
    simp
  · rw [writeByte_ram_high mmu a v hp h3 h2, Option.some_bind]
    have hr := readByte_ram ({ mmu with
        internalRAM := fun j => if j = a &&& 8191 then v else mmu.internalRAM j })
      a hp h1 h2
    rw [hr]
    simp

/-- C6 witness: write 9 at 0xD000 on a fresh router, read it back. -/
theorem C6_wram_write_read_witness :
    (newMMU.WriteByte 0xD000 9).bind (fun m => m.ReadByte 0xD000) = some 9 :=
  C6_wram_write_read newMMU 0xD000 9 rfl (by decide) (by decide)

/-- C7: for every address, `ReadWord` is the little-endian join of the two
byte reads — the byte at `addr` is the low-order byte and the byte at
`addr+1` (uint16 wrap) the high-order byte — and `WriteWord` writes the low
byte of the 16-bit value at `addr` and the high byte at `addr+1`. -/
theorem C7_word_ops_little_endian (mmu : GbcMMU) (a w : Nat) (hw : w < 65536) :
    mmu.ReadWord a =
      ((mmu.ReadByte a).bind fun b1 =>
        (mmu.ReadByte ((a + 1) % 65536)).bind fun b2 =>
          some ((b1 + 256 * b2) % 65536)) ∧
    mmu.WriteWord a w =
      ((mmu.WriteByte a (w % 256)).bind fun m1 =>
        m1.WriteByte ((a + 1) % 65536) (w / 256)) := by
  constructor
  · rfl
  · simp only [GbcMMU.WriteWord, SplitIntoBytes, wordAdd]
    rw [Nat.mod_eq_of_lt hw]

/-- C7 witness: the word operations at address 0xC000 and value 0x1234 on a
fresh router. -/
theorem C7_word_ops_witness :
    newMMU.ReadWord 0xC000 =
      ((newMMU.ReadByte 0xC000).bind fun b1 =>
        (newMMU.ReadByte ((0xC000 + 1) % 65536)).bind fun b2 =>
          some ((b1 + 256 * b2) % 65536)) ∧
    newMMU.WriteWord 0xC000 0x1234 =
      ((newMMU.WriteByte 0xC000 (0x1234 % 256)).bind fun m1 =>
        m1.WriteByte ((0xC000 + 1) % 65536) (0x1234 / 256)) :=
  C7_word_ops_little_endian newMMU 0xC000 0x1234 (by decide)

/-- Indices below the start of a `storeRange` copy are untouched. -/
theorem storeRange_lt (j : Nat) :
    ∀ (data : List Nat) (a : Nat → Nat) (s : Nat), j < s → storeRange a s data j = a j := by
  intro data
  induction data with
  | nil =>
    intro a s _
    rfl
  | cons b rest ih =>
    intro a s hj
    simp only [storeRange]
    rw [ih _ (s + 1) (by omega)]
    rw [if_neg (by omega)]

/-- A `storeRange` copy places the list's bytes at consecutive offsets from
its start. -/
theorem storeRange_get :
    ∀ (data : List Nat) (a : Nat → Nat) (s i : Nat) (h : i < data.length),
      storeRange a s data (s + i) = data.get ⟨i, h⟩ := by
  intro data
  induction data with
  | nil =>
    intro a s i h
    simp at h
  | cons b rest ih =>
    intro a s i h
    cases i with
    | zero =>
      simp only [storeRange, Nat.add_zero]
      rw [storeRange_lt s rest _ (s + 1) (by omega)]
      simp
    | succ i2 =>
      simp only [storeRange]
      have hs : s + (i2 + 1) = (s + 1) + i2 := by omega
      rw [hs, ih _ (s + 1) i2 (by simpa using h)]
      rfl

/-- C8: `LoadBIOS` with at most 256 bytes succeeds and copies the data into
the overlay buffer from offset 0; with more than 256 bytes it fails with the
`ROMIsBiggerThanRegion` error (the spec's `OverlayTooLarge`) and leaves the
whole router state, in particular the overlay buffer, unchanged. -/
theorem C8_loadBIOS (mmu : GbcMMU) (data : List Nat) :
    (data.length ≤ 256 →
      (mmu.LoadBIOS data).2 = (true, none) ∧
      ∀ i (h : i < data.length), (mmu.LoadBIOS data).1.bios i = data.get ⟨i, h⟩) ∧
    (256 < data.length →
      (mmu.LoadBIOS data).2 = (false, some MMUError.ROMIsBiggerThanRegion) ∧
      (mmu.LoadBIOS data).1 = mmu) := by
  constructor
  · intro hle
    have hgt : ¬ data.length > 256 := by omega
    refine ⟨by simp only [GbcMMU.LoadBIOS, if_neg hgt], ?_⟩
    intro i h
    simp only [GbcMMU.LoadBIOS, if_neg hgt]
    have hg := storeRange_get data mmu.bios 0 i h
    simpa using hg
  · intro hgt
    refine ⟨?_, ?_⟩ <;> simp [GbcMMU.LoadBIOS, if_pos hgt]

/-- C8 witness: loading the one-byte overlay `[7]` on a fresh router
succeeds and stores 7 at offset 0. -/
theorem C8_loadBIOS_witness :
    (newMMU.LoadBIOS [7]).2 = (true, none) ∧ (newMMU.LoadBIOS [7]).1.bios 0 = 7 := by
  have h := (C8_loadBIOS newMMU [7]).1 (by decide)
  exact ⟨h.1, by simpa using h.2 0 (by decide)⟩

/-- C9: `Reset` sets the boot-mode flag to active and the interrupt-flag
register to 0x00, and changes nothing else: the peripheral map, the
cartridge boundary, the boot overlay, work RAM, echo RAM, zero-page RAM,
reserved scratch, the DMG-compatibility register and the interrupt-enable
register are all unchanged. -/
theorem C9_reset_frame (mmu : GbcMMU) :
    mmu.Reset.inBootMode = true ∧
    mmu.Reset.interruptsFlag = 0x00 ∧
    mmu.Reset.peripheralIOMap = mmu.peripheralIOMap ∧
    mmu.Reset.cartRead = mmu.cartRead ∧
    mmu.Reset.cartWrites = mmu.cartWrites ∧
    mmu.Reset.bios = mmu.bios ∧
    mmu.Reset.internalRAM = mmu.internalRAM ∧
    mmu.Reset.internalRAMShadow = mmu.internalRAMShadow ∧
    mmu.Reset.zeroPageRAM = mmu.zeroPageRAM ∧
    mmu.Reset.emptySpace = mmu.emptySpace ∧
    mmu.Reset.dmgStatusRegister = mmu.dmgStatusRegister ∧
    mmu.Reset.interruptsEnabled = mmu.interruptsEnabled :=
  ⟨rfl, rfl, rfl, rfl, rfl, rfl, rfl, rfl, rfl, rfl, rfl, rfl⟩

/-- C10 (code evaluation at the failing input): `ConnectPeripheral` with
startAddr = 0xFFFE and endAddr = 0xFFFF takes the range-loop branch, and
the loop never exits: the uint16 counter wraps from 0xFFFF to 0, so its
guard `addr <= 0xFFFF` holds at every iteration — refuting the claim that
the call terminates for every startAddr ≤ endAddr. -/
theorem C10_connect_loop_diverges : ¬ ConnectPeripheralTerminates 0xFFFE 0xFFFF := by
  rintro (h | ⟨n, hn⟩)
  · omega
  · simp only [connectCounter] at hn
    have hlt : (0xFFFE + n) % 65536 < 65536 := Nat.mod_lt _ (by omega)
    omega
